import Mathlib

/-!
Verification of the MCP stdio-to-WebSocket bridge (auto_port_bridge.js /
bridge.js / auto_service.js / main.ts).

The development shallowly embeds the request correlator (pending-request
table keyed by identifier), the protocol translator (per-request response
framing on stdout), the port-scanning server creation loop, the peer
connection handler of both bridge variants, the supervisor restart
throttle, and the plugin console-capture buffer.  Stateful handlers become
explicit state-passing step functions; machine integers are Nat/Int.
-/

/- ===== JavaScript-style identifier values (message.id) ===== -/

/-- A JSON-RPC id field as JavaScript sees it: absent, null, number,
string, or boolean. -/
inductive JsId where
  | absent
  | jnull
  | num (n : Int)
  | str (s : String)
  | bool (b : Bool)
deriving DecidableEq

/-- JavaScript truthiness of an id value. -/
def truthy : JsId → Bool
  | JsId.num n => n != 0
  | JsId.str s => s != ""
  | JsId.bool b => b
  | _ => false

/-- The expression message.id OR 0 used by the tools/call reply path of
auto_port_bridge.js. -/
def jsOrZero (id : JsId) : JsId :=
  if truthy id then id else JsId.num 0

/- ===== Request Correlator (auto_port_bridge.js pendingRequests) ===== -/

/-- How a pending request was resolved (resolve/reject of its promise). -/
inductive ResKind where
  | success
  | errorResp
  | timedOut
  | connClosed
  | sendFailed
  | noConn
deriving DecidableEq

/-- Correlator state: the peer-connection flag, the incrementing request
counter (nextRequestId, starting at 1), the pending-request table (ids of
live entries, in insertion order), and the trace of resolutions performed
so far. -/
structure CorrState where
  connected : Bool
  nextRequestId : Nat
  pending : List Nat
  resolutions : List (Nat × ResKind)
deriving DecidableEq

def corrInit : CorrState := ⟨false, 1, [], []⟩

/-- External stimuli handled by the bridge: peer connect, peer disconnect
(ws close handler), a forwardToObsidian call (sendOk says whether
connection.send threw), a peer response message for an id, and a
per-request timeout firing for an id. -/
inductive CorrEvent where
  | connect
  | disconnect
  | forward (sendOk : Bool)
  | response (id : Nat) (isErr : Bool)
  | timeoutFire (id : Nat)
deriving DecidableEq

/-- One event handler dispatch of auto_port_bridge.js.

forward: forwardToObsidian allocates id := nextRequestId++, stores the
entry, then either keeps it pending (send succeeded), or immediately
deletes it and rejects (no connection / send threw).
response: the ws message handler resolves and deletes the entry only if
the id is still in the table, otherwise the message is dropped.
timeoutFire: the 15-second setTimeout callback rejects and deletes the
entry only if the id is still in the table.
disconnect: the ws close handler rejects every pending entry with a
connection-closed error and clears the table. -/
def corrStep (s : CorrState) : CorrEvent → CorrState
  | CorrEvent.connect => { s with connected := true }
  | CorrEvent.disconnect =>
      ⟨false, s.nextRequestId, [],
        s.resolutions ++ s.pending.map (fun i => (i, ResKind.connClosed))⟩
  | CorrEvent.forward ok =>
      let i := s.nextRequestId
      if s.connected then
        if ok then
          { s with nextRequestId := i + 1, pending := s.pending ++ [i] }
        else
          { s with nextRequestId := i + 1,
                   resolutions := s.resolutions ++ [(i, ResKind.sendFailed)] }
      else
        { s with nextRequestId := i + 1,
                 resolutions := s.resolutions ++ [(i, ResKind.noConn)] }
  | CorrEvent.response i isErr =>
      if i ∈ s.pending then
        { s with pending := s.pending.erase i,
                 resolutions := s.resolutions ++
                   [(i, if isErr then ResKind.errorResp else ResKind.success)] }
      else s
  | CorrEvent.timeoutFire i =>
      if i ∈ s.pending then
        { s with pending := s.pending.erase i,
                 resolutions := s.resolutions ++ [(i, ResKind.timedOut)] }
      else s

/-- Run a sequence of events from the initial bridge state. -/
def corrRun (evs : List CorrEvent) : CorrState :=
  evs.foldl corrStep corrInit

/-- Number of resolutions recorded for identifier i. -/
def idCount (rs : List (Nat × ResKind)) (i : Nat) : Nat :=
  match rs with
  | [] => 0
  | (j, _) :: t => (if j = i then 1 else 0) + idCount t i

/-- Inductive invariant of the correlator state. -/
structure CorrInv (s : CorrState) : Prop where
  pend_lt : ∀ i ∈ s.pending, i < s.nextRequestId
  pend_nodup : s.pending.Nodup
  pend_unres : ∀ i ∈ s.pending, idCount s.resolutions i = 0
  future_unres : ∀ i, s.nextRequestId ≤ i → idCount s.resolutions i = 0
  res_once : ∀ i, idCount s.resolutions i ≤ 1

/- ===== Protocol Translator (auto_port_bridge.js) ===== -/

/-- The method field of a parsed stdin frame. -/
inductive Method where
  | mInit
  | mNotifInited
  | mToolsList
  | mToolsCall
  | mResourcesList
  | mResourcesTemplates
  | mUnknown (name : String)
deriving DecidableEq

/-- Response payloads produced by processRequest (the JSON bodies are kept
abstract; distinct source objects get distinct constructors, peer results
are opaque values). -/
inductive Payload where
  | initResult
  | emptyObj
  | toolCatalog
  | emptyResources
  | emptyTemplates
  | peerValue (v : Nat)
  | errObj (code : Int) (msg : String)
deriving DecidableEq

/-- A parsed stdin request: id, method, and the tools/call params
(params.name and an opaque params.arguments blob). -/
structure McpMessage where
  id : JsId
  method : Method
  toolName : String
  toolArgs : Nat
deriving DecidableEq

/-- A frame sent to the peer over the WebSocket by forwardToObsidian. -/
structure SockFrame where
  id : Nat
  name : String
  args : Nat
deriving DecidableEq

/-- Eventual outcome of the promise returned by forwardToObsidian. -/
inductive FwdOutcome where
  | peerResult (v : Nat)
  | peerError (m : String)
  | timedOut
  | connClosed
deriving DecidableEq

/-- A newline-terminated JSON-RPC frame written to standard output by
sendMcpResponse or sendMcpError. -/
inductive Frame where
  | result (id : JsId) (p : Payload)
  | error (id : JsId) (code : Int) (m : String)
deriving DecidableEq

/-- The value processRequest settles with: a returned payload, the
deliberate null return of the tools/call path, or a thrown error. -/
inductive ProcReturn where
  | value (p : Payload)
  | nullReturn
  | thrown (m : String)
deriving DecidableEq

/-- Error message carried by a rejected forwardToObsidian promise. -/
def fwdErrMsg : FwdOutcome → String
  | FwdOutcome.peerError m => m
  | FwdOutcome.timedOut => "Request timed out after 15 seconds"
  | FwdOutcome.connClosed => "WebSocket connection closed"
  | FwdOutcome.peerResult _ => ""

/-- Result of one processRequest call of auto_port_bridge.js: the settled
return value, the stdout frames written inside the call, the socket frames
sent, and the correlator counter/table after the request's lifecycle has
completed. -/
structure ProcOut where
  ret : ProcReturn
  frames : List Frame
  sock : List SockFrame
  nextId : Nat
  pending : List Nat
deriving DecidableEq

/-- processRequest of auto_port_bridge.js.  tools/call with no peer throws
before touching the pending table; tools/call with a peer forwards under
the fresh internal id and, on success, itself writes the reply under
message.id OR 0 and returns null; every other recognized method returns
its static payload; an unknown method throws. -/
def processRequest (connected : Bool) (nextId : Nat) (pending : List Nat)
    (msg : McpMessage) (fwd : FwdOutcome) : ProcOut :=
  match msg.method with
  | Method.mInit => ⟨ProcReturn.value Payload.initResult, [], [], nextId, pending⟩
  | Method.mNotifInited => ⟨ProcReturn.value Payload.emptyObj, [], [], nextId, pending⟩
  | Method.mToolsList => ⟨ProcReturn.value Payload.toolCatalog, [], [], nextId, pending⟩
  | Method.mToolsCall =>
      if connected then
        match fwd with
        | FwdOutcome.peerResult v =>
            ⟨ProcReturn.nullReturn,
             [Frame.result (jsOrZero msg.id) (Payload.peerValue v)],
             [⟨nextId, msg.toolName, msg.toolArgs⟩], nextId + 1, pending⟩
        | f =>
            ⟨ProcReturn.thrown (fwdErrMsg f), [],
             [⟨nextId, msg.toolName, msg.toolArgs⟩], nextId + 1, pending⟩
      else
        ⟨ProcReturn.thrown "Not connected to Obsidian plugin", [], [], nextId, pending⟩
  | Method.mResourcesList => ⟨ProcReturn.value Payload.emptyResources, [], [], nextId, pending⟩
  | Method.mResourcesTemplates => ⟨ProcReturn.value Payload.emptyTemplates, [], [], nextId, pending⟩
  | Method.mUnknown n => ⟨ProcReturn.thrown ("Unknown method: " ++ n), [], [], nextId, pending⟩

/-- handleMcpRequest of auto_port_bridge.js: the stdout frames produced
for one parsed request.  A returned payload is sent under the raw
message.id, a null return sends nothing further, a thrown error becomes a
code -32603 error frame under the raw message.id. -/
def handleMcpRequest (connected : Bool) (nextId : Nat) (pending : List Nat)
    (msg : McpMessage) (fwd : FwdOutcome) : List Frame :=
  let o := processRequest connected nextId pending msg fwd
  match o.ret with
  | ProcReturn.value p => o.frames ++ [Frame.result msg.id p]
  | ProcReturn.nullReturn => o.frames
  | ProcReturn.thrown m => o.frames ++ [Frame.error msg.id (-32603) m]

/- ===== Protocol Translator (bridge.js variant) ===== -/

/-- processRequest of bridge.js.  The tools/call path returns the peer
result (or an error object) instead of writing the frame itself, and
handleMcpRequest wraps whatever is returned inside the result field. -/
def processRequestBridge (connected : Bool) (pending : List Nat)
    (msg : McpMessage) (fwd : FwdOutcome) : ProcReturn × List Nat :=
  match msg.method with
  | Method.mInit => (ProcReturn.value Payload.initResult, pending)
  | Method.mNotifInited => (ProcReturn.value Payload.emptyObj, pending)
  | Method.mToolsList => (ProcReturn.value Payload.toolCatalog, pending)
  | Method.mToolsCall =>
      if connected then
        match fwd with
        | FwdOutcome.peerResult v => (ProcReturn.value (Payload.peerValue v), pending)
        | f => (ProcReturn.value (Payload.errObj (-32603) (fwdErrMsg f)), pending)
      else
        (ProcReturn.value
          (Payload.errObj (-32603) "Not connected to Obsidian plugin"), pending)
  | Method.mResourcesList => (ProcReturn.value Payload.emptyResources, pending)
  | Method.mResourcesTemplates => (ProcReturn.value Payload.emptyTemplates, pending)
  | Method.mUnknown n => (ProcReturn.thrown ("Unknown method: " ++ n), pending)

/-- handleMcpRequest of bridge.js: a non-null return is serialized as a
result frame under message.id; a thrown error becomes an error frame. -/
def handleMcpRequestBridge (connected : Bool) (pending : List Nat)
    (msg : McpMessage) (fwd : FwdOutcome) : List Frame :=
  match (processRequestBridge connected pending msg fwd).1 with
  | ProcReturn.value p => [Frame.result msg.id p]
  | ProcReturn.nullReturn => []
  | ProcReturn.thrown m => [Frame.error msg.id (-32603) m]

/-- Does a stdout frame carry the not-connected failure, either as a
JSON-RPC error frame (auto_port_bridge.js) or as an error object inside
the result field (bridge.js)? -/
def carriesNotConnected : Frame → Bool
  | Frame.error _ _ m => m == "Not connected to Obsidian plugin"
  | Frame.result _ (Payload.errObj _ m) => m == "Not connected to Obsidian plugin"
  | _ => false

/- ===== Port Allocator (auto_port_bridge.js createServer) ===== -/

def PORT_MIN : Nat := 27125
def PORT_MAX : Nat := 27135

/-- Result of one bind attempt of new WebSocket.Server. -/
inductive BindResult where
  | listening
  | addrInUse
  | otherError
deriving DecidableEq

/-- How one createServer invocation ends: bound to a port; stuck forever
awaiting a promise that neither resolves nor rejects (the address-in-use
branch closes the server without settling the promise); or the range
exhausted, with a fresh full sweep scheduled 5000 ms later. -/
inductive ScanOutcome where
  | bound (port : Nat)
  | hungAt (port : Nat)
  | exhaustedRetry5s
deriving DecidableEq

/-- Trace of one createServer invocation: the ports attempted in order,
the number of 2000 ms backoff waits performed, the port value written to
the port file (saveSuccessfulPort), and the final outcome. -/
structure ScanResult where
  attempts : List Nat
  backoff2sCount : Nat
  persisted : Option Nat
  outcome : ScanOutcome
deriving DecidableEq

/-- The for-loop of createServer, fuel counting the candidates left up to
PORT_MAX.  listening: record currentPort, persist it, succeed.
addrInUse: the error handler logs and closes the server but never settles
the awaited promise, so the loop hangs at this candidate.  Any other
error: the promise rejects, the catch waits 2000 ms, and the loop
continues with the NEXT port. -/
def scanFrom (bind : Nat → BindResult) : Nat → Nat → ScanResult
  | 0, _ => ⟨[], 0, none, ScanOutcome.exhaustedRetry5s⟩
  | fuel + 1, port =>
      match bind port with
      | BindResult.listening => ⟨[port], 0, some port, ScanOutcome.bound port⟩
      | BindResult.addrInUse => ⟨[port], 0, none, ScanOutcome.hungAt port⟩
      | BindResult.otherError =>
          let r := scanFrom bind fuel (port + 1)
          ⟨port :: r.attempts, r.backoff2sCount + 1, r.persisted, r.outcome⟩

/-- loadLastSuccessfulPort: the persisted value is adopted only when it
lies within the range, otherwise the scan starts at currentPort's initial
value, the range's lower bound. -/
def startPort : Option Nat → Nat
  | some p => if PORT_MIN ≤ p ∧ p ≤ PORT_MAX then p else PORT_MIN
  | none => PORT_MIN

/-- One createServer invocation given a bind oracle and the persisted
port-file content. -/
def createServer (bind : Nat → BindResult) (saved : Option Nat) : ScanResult :=
  scanFrom bind (PORT_MAX + 1 - startPort saved) (startPort saved)

/-- Modelled from the spec: the claimed acquisition algorithm, in which an
address-in-use failure advances to the next candidate, and any other bind
failure waits the 2-second backoff and retries the same candidate once
(the oracle is pure, so the retry sees the same result) before advancing. -/
def specScanFrom (bind : Nat → BindResult) : Nat → Nat → ScanResult
  | 0, _ => ⟨[], 0, none, ScanOutcome.exhaustedRetry5s⟩
  | fuel + 1, port =>
      match bind port with
      | BindResult.listening => ⟨[port], 0, some port, ScanOutcome.bound port⟩
      | BindResult.addrInUse =>
          let r := specScanFrom bind fuel (port + 1)
          ⟨port :: r.attempts, r.backoff2sCount, r.persisted, r.outcome⟩
      | BindResult.otherError =>
          let r := specScanFrom bind fuel (port + 1)
          ⟨port :: port :: r.attempts, r.backoff2sCount + 1, r.persisted, r.outcome⟩

/-- Modelled from the spec: acquire_port with the persisted hint. -/
def specAcquirePort (bind : Nat → BindResult) (saved : Option Nat) : ScanResult :=
  specScanFrom bind (PORT_MAX + 1 - startPort saved) (startPort saved)

/- ===== Socket Listener connection handlers ===== -/

/-- Listener state: the sockets currently open on the server and the
obsidianConnection reference. -/
structure ListenerState where
  openSockets : List Nat
  peer : Option Nat
deriving DecidableEq

def listenerInit : ListenerState := ⟨[], none⟩

/-- A new incoming connection (with a socket handle) or a socket's close
event. -/
inductive ConnEvent where
  | connection (c : Nat)
  | socketClosed (c : Nat)
deriving DecidableEq

/-- bridge.js connection handling: a new connection first closes any
existing obsidianConnection, then becomes the peer; a socket close event
removes that socket and nulls the peer reference. -/
def stepBridge (s : ListenerState) : ConnEvent → ListenerState
  | ConnEvent.connection c =>
      match s.peer with
      | some o => ⟨c :: (s.openSockets.erase o), some c⟩
      | none => ⟨c :: s.openSockets, some c⟩
  | ConnEvent.socketClosed c =>
      if c ∈ s.openSockets then ⟨s.openSockets.erase c, none⟩ else s

/-- auto_port_bridge.js connection handling: the new connection merely
overwrites the obsidianConnection reference; the previous socket is left
open. -/
def stepAutoBridge (s : ListenerState) : ConnEvent → ListenerState
  | ConnEvent.connection c => ⟨c :: s.openSockets, some c⟩
  | ConnEvent.socketClosed c =>
      if c ∈ s.openSockets then ⟨s.openSockets.erase c, none⟩ else s

def runBridge (evs : List ConnEvent) : ListenerState :=
  evs.foldl stepBridge listenerInit

def runAutoBridge (evs : List ConnEvent) : ListenerState :=
  evs.foldl stepAutoBridge listenerInit

/- ===== Process Supervisor (auto_service.js) ===== -/

def MAX_RESTARTS : Nat := 5
def RESTART_COOLDOWN : Nat := 60000

/-- Supervisor restart-tracking state. -/
structure SupState where
  restartCount : Nat
  lastRestartTime : Nat
  shutdownRequested : Bool
deriving DecidableEq

/-- What one startBridge call does. -/
inductive StartResult where
  | noStart
  | deferredUntil (resumeTime : Nat) (resumeState : SupState)
  | spawned
deriving DecidableEq

/-- startBridge of auto_service.js: refuse after shutdown; if the restart
counter has reached MAX_RESTARTS and the last restart lies inside the
cooldown window, defer via setTimeout(RESTART_COOLDOWN), which first
resets the counter to zero and then calls startBridge again; otherwise
spawn the child. -/
def startBridge (s : SupState) (now : Nat) : StartResult :=
  if s.shutdownRequested then StartResult.noStart
  else if MAX_RESTARTS ≤ s.restartCount ∧ now - s.lastRestartTime < RESTART_COOLDOWN then
    StartResult.deferredUntil (now + RESTART_COOLDOWN) { s with restartCount := 0 }
  else StartResult.spawned

/-- The bridge exit handler: increment the restart counter and stamp the
restart time (the 2000 ms re-spawn delay is applied by the caller). -/
def onBridgeExit (s : SupState) (now : Nat) : SupState :=
  { s with restartCount := s.restartCount + 1, lastRestartTime := now }

/-- Crash-loop simulation: the child crashes the instant it is spawned, so
each spawn at time t is followed by the exit handler at t and the next
startBridge attempt at t + 2000; a deferred attempt resumes at the end of
the cooldown with the counter reset.  Returns the spawn times. -/
def crashLoopSpawns : Nat → Nat → SupState → List Nat
  | 0, _, _ => []
  | n + 1, t, s =>
      match startBridge s t with
      | StartResult.noStart => []
      | StartResult.deferredUntil rt rs => crashLoopSpawns n rt rs
      | StartResult.spawned => t :: crashLoopSpawns n (t + 2000) (onBridgeExit s t)

/- ===== Plugin console capture (main.ts) ===== -/

def CONSOLE_CAP : Nat := 1000

/-- The patched console method of setupConsoleCapture: push the new entry,
then drop the oldest (shift) when the buffer holds more than 1000. -/
def captureConsoleMessage (buf : List String) (m : String) : List String :=
  let b := buf ++ [m]
  if CONSOLE_CAP < b.length then b.tail else b

/-- getConsoleLogs of main.ts: this.consoleMessages.slice(-limit) with the
TypeScript default limit = 100 applied when the argument is undefined.
JavaScript slice: a negative start counts from the end (so a positive
limit keeps the last limit entries), while -limit for limit ≤ 0 is a
non-negative start index, dropping the first (-limit) entries — in
particular slice(-0) = slice(0) returns the whole array. -/
def getConsoleLogs (buf : List String) (limit : Option Int) : List String :=
  let l := limit.getD 100
  if 0 < l then buf.drop (buf.length - l.toNat) else buf.drop (-l).toNat

/- ===== Helper lemmas ===== -/

theorem idCount_append (a b : List (Nat × ResKind)) (i : Nat) :
    idCount (a ++ b) i = idCount a i + idCount b i := by
  induction a with
  | nil => simp [idCount]
  | cons x t ih =>
      obtain ⟨j, k⟩ := x
      simp only [List.cons_append, idCount, List.append_eq, ih]
      omega

theorem idCount_singleton (n : Nat) (k : ResKind) (i : Nat) :
    idCount [(n, k)] i = if n = i then 1 else 0 := by
  simp [idCount]

theorem idCount_map_connClosed (l : List Nat) (i : Nat) :
    idCount (l.map (fun j => (j, ResKind.connClosed))) i = l.count i := by
  induction l with
  | nil => rfl
  | cons a t ih =>
      simp only [List.map_cons, idCount, ih, List.count_cons]
      by_cases h : a = i
      · simp [h]
        omega
      · simp [h]

theorem corrInv_init : CorrInv corrInit := by
  refine ⟨?_, ?_, ?_, ?_, ?_⟩ <;> simp [corrInit, idCount]

theorem corrInv_resolveFresh (b : Bool) (n : Nat) (p : List Nat)
    (r : List (Nat × ResKind)) (k : ResKind)
    (hlt : ∀ i ∈ p, i < n) (hnd : p.Nodup)
    (hunres : ∀ i ∈ p, idCount r i = 0)
    (hfut : ∀ i, n ≤ i → idCount r i = 0)
    (honce : ∀ i, idCount r i ≤ 1) :
    CorrInv ⟨b, n + 1, p, r ++ [(n, k)]⟩ := by
  refine ⟨?_, hnd, ?_, ?_, ?_⟩
  · show ∀ i ∈ p, i < n + 1
    intro i hi; have := hlt i hi; omega
  · show ∀ i ∈ p, idCount (r ++ [(n, k)]) i = 0
    intro i hi
    rw [idCount_append, idCount_singleton, hunres i hi]
    have := hlt i hi
    have hne : n ≠ i := by omega
    simp [hne]
  · show ∀ i, n + 1 ≤ i → idCount (r ++ [(n, k)]) i = 0
    intro i hi
    rw [idCount_append, idCount_singleton, hfut i (by omega)]
    have hne : n ≠ i := by omega
    simp [hne]
  · show ∀ i, idCount (r ++ [(n, k)]) i ≤ 1
    intro i
    rw [idCount_append, idCount_singleton]
    by_cases hi : n = i
    · subst hi
      rw [hfut n le_rfl]
      simp
    · have := honce i
      simp [hi]
      omega

theorem corrInv_resolvePending (b' : Bool) (n : Nat) (p : List Nat)
    (r : List (Nat × ResKind)) (i0 : Nat) (k : ResKind) (hm : i0 ∈ p)
    (hlt : ∀ i ∈ p, i < n) (hnd : p.Nodup)
    (hunres : ∀ i ∈ p, idCount r i = 0)
    (hfut : ∀ i, n ≤ i → idCount r i = 0)
    (honce : ∀ i, idCount r i ≤ 1) :
    CorrInv ⟨b', n, p.erase i0, r ++ [(i0, k)]⟩ := by
  refine ⟨?_, hnd.erase i0, ?_, ?_, ?_⟩
  · show ∀ i ∈ p.erase i0, i < n
    intro i hi; exact hlt i (List.mem_of_mem_erase hi)
  · show ∀ i ∈ p.erase i0, idCount (r ++ [(i0, k)]) i = 0
    intro i hi
    have hi' : i ≠ i0 ∧ i ∈ p := (List.Nodup.mem_erase_iff hnd).mp hi
    rw [idCount_append, idCount_singleton, hunres i hi'.2]
    have hne : i0 ≠ i := fun hx => hi'.1 hx.symm
    simp [hne]
  · show ∀ i, n ≤ i → idCount (r ++ [(i0, k)]) i = 0
    intro i hi
    rw [idCount_append, idCount_singleton, hfut i hi]
    have := hlt i0 hm
    have hne : i0 ≠ i := by omega
    simp [hne]
  · show ∀ i, idCount (r ++ [(i0, k)]) i ≤ 1
    intro i
    rw [idCount_append, idCount_singleton]
    by_cases hi : i0 = i
    · subst hi
      rw [hunres i0 hm]
      simp
    · have := honce i
      simp [hi]
      omega

theorem corrInv_step (s : CorrState) (e : CorrEvent) (h : CorrInv s) :
    CorrInv (corrStep s e) := by
  obtain ⟨sc, sn, sp, sr⟩ := s
  obtain ⟨hlt, hnd, hunres, hfut, honce⟩ := h
  replace hlt : ∀ i ∈ sp, i < sn := hlt
  replace hnd : sp.Nodup := hnd
  replace hunres : ∀ i ∈ sp, idCount sr i = 0 := hunres
  replace hfut : ∀ i, sn ≤ i → idCount sr i = 0 := hfut
  replace honce : ∀ i, idCount sr i ≤ 1 := honce
  cases e with
  | connect => exact ⟨hlt, hnd, hunres, hfut, honce⟩
  | disconnect =>
      refine ⟨?_, ?_, ?_, ?_, ?_⟩
      · show ∀ i ∈ ([] : List Nat), i < sn
        simp
      · show ([] : List Nat).Nodup
        simp
      · show ∀ i ∈ ([] : List Nat), idCount _ i = 0
        simp
      · show ∀ i, sn ≤ i →
          idCount (sr ++ sp.map (fun j => (j, ResKind.connClosed))) i = 0
        intro i hi
        rw [idCount_append, idCount_map_connClosed, hfut i hi]
        have : sp.count i = 0 :=
          List.count_eq_zero.mpr (fun hm => by have := hlt i hm; omega)
        omega
      · show ∀ i, idCount (sr ++ sp.map (fun j => (j, ResKind.connClosed))) i ≤ 1
        intro i
        rw [idCount_append, idCount_map_connClosed]
        by_cases hm : i ∈ sp
        · have h1 := hunres i hm
          have h2 : sp.count i ≤ 1 := List.nodup_iff_count_le_one.mp hnd i
          omega
        · have h1 : sp.count i = 0 := List.count_eq_zero.mpr hm
          have h2 := honce i
          omega
  | forward ok =>
      show CorrInv (if sc then _ else _)
      cases sc with
      | false =>
          simp only [Bool.false_eq_true, if_false]
          exact corrInv_resolveFresh false (sn) sp sr ResKind.noConn hlt hnd hunres hfut honce
      | true =>
          simp only [if_true]
          cases ok with
          | false =>
              simp only [Bool.false_eq_true, if_false]
              exact corrInv_resolveFresh true sn sp sr ResKind.sendFailed hlt hnd hunres hfut honce
          | true =>
              simp only [if_true]
              refine ⟨?_, ?_, ?_, ?_, honce⟩
              · show ∀ i ∈ sp ++ [sn], i < sn + 1
                intro i hi
                rcases List.mem_append.mp hi with hi | hi
                · have := hlt i hi; omega
                · simp at hi; omega
              · show (sp ++ [sn]).Nodup
                refine hnd.append (by simp) ?_
                intro a ha hb
                simp at hb
                subst hb
                have := hlt _ ha
                omega
              · show ∀ i ∈ sp ++ [sn], idCount sr i = 0
                intro i hi
                rcases List.mem_append.mp hi with hi | hi
                · exact hunres i hi
                · simp at hi; subst hi; exact hfut _ le_rfl
              · show ∀ i, sn + 1 ≤ i → idCount sr i = 0
                intro i hi
                exact hfut i (by omega)
  | response i0 isErr =>
      show CorrInv (if i0 ∈ sp then _ else _)
      by_cases hm : i0 ∈ sp
      · simp only [hm, if_true]
        exact corrInv_resolvePending sc sn sp sr i0 _ hm hlt hnd hunres hfut honce
      · simp only [hm, if_false]
        exact ⟨hlt, hnd, hunres, hfut, honce⟩
  | timeoutFire i0 =>
      show CorrInv (if i0 ∈ sp then _ else _)
      by_cases hm : i0 ∈ sp
      · simp only [hm, if_true]
        exact corrInv_resolvePending sc sn sp sr i0 ResKind.timedOut hm hlt hnd hunres hfut honce
      · simp only [hm, if_false]
        exact ⟨hlt, hnd, hunres, hfut, honce⟩

theorem corrInv_run (evs : List CorrEvent) : CorrInv (corrRun evs) := by
  suffices h : ∀ s, CorrInv s → CorrInv (evs.foldl corrStep s) from h corrInit corrInv_init
  induction evs with
  | nil => intro s hs; exact hs
  | cons e t ih => intro s hs; exact ih _ (corrInv_step s e hs)

/- ===== Additional helper lemmas ===== -/

theorem startPort_le_max (saved : Option Nat) : startPort saved ≤ PORT_MAX := by
  cases saved with
  | none => simp [startPort, PORT_MIN, PORT_MAX]
  | some p =>
      simp only [startPort]
      split
      · omega
      · simp [PORT_MIN, PORT_MAX]

theorem scanFrom_persisted_iff (bind : Nat → BindResult) (fuel : Nat) :
    ∀ (port q : Nat), ((scanFrom bind fuel port).persisted = some q ↔
      (scanFrom bind fuel port).outcome = ScanOutcome.bound q) := by
  induction fuel with
  | zero => intro port q; simp [scanFrom]
  | succ n ih =>
      intro port q
      simp only [scanFrom]
      cases hb : bind port with
      | listening => simp
      | addrInUse => simp
      | otherError => simpa using ih (port + 1) q

theorem scanFrom_all_otherError (bind : Nat → BindResult)
    (h : ∀ p, bind p = BindResult.otherError) (fuel : Nat) :
    ∀ port, (scanFrom bind fuel port).outcome = ScanOutcome.exhaustedRetry5s := by
  induction fuel with
  | zero => intro port; rfl
  | succ n ih => intro port; simp [scanFrom, h port, ih (port + 1)]

def ListenerInv (s : ListenerState) : Prop :=
  s.openSockets.length ≤ 1 ∧ ∀ x ∈ s.openSockets, s.peer = some x

theorem listenerInv_step (s : ListenerState) (e : ConnEvent)
    (h : ListenerInv s) : ListenerInv (stepBridge s e) := by
  obtain ⟨socks, peer⟩ := s
  obtain ⟨hlen, hmem⟩ := h
  replace hlen : socks.length ≤ 1 := hlen
  replace hmem : ∀ x ∈ socks, peer = some x := hmem
  cases e with
  | connection c =>
      cases peer with
      | none =>
          have hnil : socks = [] := by
            cases socks with
            | nil => rfl
            | cons a t => exact absurd (hmem a (by simp)) (by simp)
          subst hnil
          exact ⟨by simp [stepBridge], by simp [stepBridge]⟩
      | some o =>
          cases socks with
          | nil => exact ⟨by simp [stepBridge], by simp [stepBridge]⟩
          | cons a t =>
              have ht : t = [] := by
                cases t with
                | nil => rfl
                | cons b u => simp [List.length_cons] at hlen
              subst ht
              have hao : a = o := by
                have := hmem a (by simp)
                have : some o = some a := this
                exact (Option.some.inj this).symm
              subst hao
              refine ⟨?_, ?_⟩
              · simp [stepBridge, List.erase_cons_head]
              · intro x hx
                simp [stepBridge, List.erase_cons_head] at hx
                simp [stepBridge, List.erase_cons_head, hx]
  | socketClosed c =>
      by_cases hc : c ∈ socks
      · have hsock : socks = [c] := by
          cases socks with
          | nil => simp at hc
          | cons a t =>
              have ht : t = [] := by
                cases t with
                | nil => rfl
                | cons b u => simp [List.length_cons] at hlen
              subst ht
              simp at hc
              simp [hc]
        subst hsock
        refine ⟨?_, ?_⟩
        · simp [stepBridge]
        · intro x hx
          simp [stepBridge] at hx
      · constructor
        · simp only [stepBridge, if_neg hc]
          exact hlen
        · simp only [stepBridge, if_neg hc]
          exact hmem

theorem listenerInv_run (evs : List ConnEvent) : ListenerInv (runBridge evs) := by
  suffices h : ∀ s, ListenerInv s → ListenerInv (evs.foldl stepBridge s) from
    h listenerInit ⟨by simp [listenerInit], by simp [listenerInit]⟩
  induction evs with
  | nil => intro s hs; exact hs
  | cons e t ih => intro s hs; exact ih _ (listenerInv_step s e hs)

/- ===== Claim theorems ===== -/

/-- Claim C1: over every event sequence, each request identifier issued by
the correlator is resolved (success or failure) at most once — the first of
peer response, timeout expiry, or peer disconnect removes the pending entry
and resolves it — and a peer response arriving for an identifier no longer
in the pending-request table leaves the state unchanged (it is dropped and
produces no second resolution). -/
theorem corr_resolution_at_most_once :
    (∀ (evs : List CorrEvent) (i : Nat), idCount (corrRun evs).resolutions i ≤ 1)
  ∧ (∀ (s : CorrState) (i : Nat) (isErr : Bool), i ∉ s.pending →
      corrStep s (CorrEvent.response i isErr) = s) := by
  constructor
  · intro evs i
    exact (corrInv_run evs).res_once i
  · intro s i isErr hni
    simp [corrStep, hni]

/-- Witness for C1: a concrete run resolves identifier 1 at most once, and
a response for an identifier with no pending entry is dropped. -/
theorem corr_resolution_at_most_once_witness :
    idCount (corrRun [CorrEvent.connect, CorrEvent.forward true,
      CorrEvent.response 1 false]).resolutions 1 ≤ 1
  ∧ corrStep corrInit (CorrEvent.response 3 false) = corrInit :=
  ⟨corr_resolution_at_most_once.1 _ 1,
   corr_resolution_at_most_once.2 corrInit 3 false (by decide)⟩

/-- Claim C3: the peer-disconnect handler rejects every entry of the
pending-request table with a connection-closed error, clears the table in
the same synchronous sweep, and afterwards any late timeout firing or
response is a no-op (the cancelled timer and no retry). -/
theorem disconnect_rejects_all_pending (s : CorrState) :
    (corrStep s CorrEvent.disconnect).pending = []
  ∧ (corrStep s CorrEvent.disconnect).resolutions
      = s.resolutions ++ s.pending.map (fun i => (i, ResKind.connClosed))
  ∧ (∀ i ∈ s.pending,
      (i, ResKind.connClosed) ∈ (corrStep s CorrEvent.disconnect).resolutions)
  ∧ (∀ i, corrStep (corrStep s CorrEvent.disconnect) (CorrEvent.timeoutFire i)
      = corrStep s CorrEvent.disconnect)
  ∧ (∀ i isErr, corrStep (corrStep s CorrEvent.disconnect) (CorrEvent.response i isErr)
      = corrStep s CorrEvent.disconnect) := by
  refine ⟨rfl, rfl, ?_, ?_, ?_⟩
  · intro i hi
    simp only [corrStep, List.mem_append, List.mem_map]
    exact Or.inr ⟨i, hi, rfl⟩
  · intro i
    simp [corrStep]
  · intro i isErr
    simp [corrStep]

/-- Witness for C3 on a state with two pending requests. -/
theorem disconnect_rejects_all_pending_witness :
    (corrStep ⟨true, 3, [1, 2], []⟩ CorrEvent.disconnect).pending = []
  ∧ (1, ResKind.connClosed) ∈ (corrStep ⟨true, 3, [1, 2], []⟩ CorrEvent.disconnect).resolutions :=
  ⟨(disconnect_rejects_all_pending ⟨true, 3, [1, 2], []⟩).1,
   (disconnect_rejects_all_pending ⟨true, 3, [1, 2], []⟩).2.2.1 1 (by decide)⟩

/-- Claim C2: a tools/call processed with no peer connected yields exactly
one reply frame carrying the not-connected failure, registers no pending
entry, sends nothing to the peer, and leaves the pending table unchanged —
in auto_port_bridge.js as a JSON-RPC error frame, in bridge.js as an error
object delivered inside the result field. -/
theorem toolsCall_no_peer_error (nid : Nat) (p : List Nat) (id : JsId)
    (nm : String) (args : Nat) (fwd : FwdOutcome) :
    handleMcpRequest false nid p ⟨id, Method.mToolsCall, nm, args⟩ fwd
      = [Frame.error id (-32603) "Not connected to Obsidian plugin"]
  ∧ (processRequest false nid p ⟨id, Method.mToolsCall, nm, args⟩ fwd).pending = p
  ∧ (processRequest false nid p ⟨id, Method.mToolsCall, nm, args⟩ fwd).nextId = nid
  ∧ (processRequest false nid p ⟨id, Method.mToolsCall, nm, args⟩ fwd).sock = []
  ∧ (handleMcpRequest false nid p ⟨id, Method.mToolsCall, nm, args⟩ fwd).all
      carriesNotConnected = true
  ∧ handleMcpRequestBridge false p ⟨id, Method.mToolsCall, nm, args⟩ fwd
      = [Frame.result id (Payload.errObj (-32603) "Not connected to Obsidian plugin")]
  ∧ (processRequestBridge false p ⟨id, Method.mToolsCall, nm, args⟩ fwd).2 = p
  ∧ (handleMcpRequestBridge false p ⟨id, Method.mToolsCall, nm, args⟩ fwd).all
      carriesNotConnected = true := by
  refine ⟨rfl, rfl, rfl, rfl, ?_, rfl, rfl, ?_⟩
  · rfl
  · rfl

/-- Claim C5: for every parsed request reaching the translator of
auto_port_bridge.js, exactly one stdout frame is produced — never zero,
never two — and the tools/call success path suppresses the synchronous
response by returning null, so the peer-derived frame is the sole reply. -/
theorem translator_one_frame_per_request :
    (∀ (c : Bool) (nid : Nat) (p : List Nat) (msg : McpMessage) (fwd : FwdOutcome),
      (handleMcpRequest c nid p msg fwd).length = 1)
  ∧ (∀ (nid : Nat) (p : List Nat) (id : JsId) (nm : String) (args v : Nat),
      (processRequest true nid p ⟨id, Method.mToolsCall, nm, args⟩
        (FwdOutcome.peerResult v)).ret = ProcReturn.nullReturn) := by
  constructor
  · intro c nid p msg fwd
    obtain ⟨id, m, nm, args⟩ := msg
    cases m <;> cases c <;> cases fwd <;> rfl
  · intro nid p id nm args v
    rfl

/-- Claim C4: a tools/call forwarded to a connected peer replies on stdout
under the caller-supplied identifier (message.id, which a truthy id
round-trips unchanged), the internally generated incrementing identifier is
used only on the socket frame, the stdout frames do not depend on the
internal counter, and even the failure reply carries the raw caller id. -/
theorem toolsCall_reply_uses_caller_id (nid : Nat) (p : List Nat) (id : JsId)
    (nm : String) (args v : Nat) (h : truthy id = true) :
    handleMcpRequest true nid p ⟨id, Method.mToolsCall, nm, args⟩ (FwdOutcome.peerResult v)
      = [Frame.result id (Payload.peerValue v)]
  ∧ (∀ fwd : FwdOutcome,
      (processRequest true nid p ⟨id, Method.mToolsCall, nm, args⟩ fwd).sock
        = [⟨nid, nm, args⟩])
  ∧ (∀ (nid' : Nat) (fwd : FwdOutcome),
      handleMcpRequest true nid p ⟨id, Method.mToolsCall, nm, args⟩ fwd
        = handleMcpRequest true nid' p ⟨id, Method.mToolsCall, nm, args⟩ fwd)
  ∧ (∀ m : String, handleMcpRequest true nid p ⟨id, Method.mToolsCall, nm, args⟩
      (FwdOutcome.peerError m) = [Frame.error id (-32603) m]) := by
  refine ⟨?_, ?_, ?_, ?_⟩
  · simp [handleMcpRequest, processRequest, jsOrZero, h]
  · intro fwd; cases fwd <;> rfl
  · intro nid' fwd; cases fwd <;> rfl
  · intro m; rfl

/-- Witness for C4 with caller id 7. -/
theorem toolsCall_reply_uses_caller_id_witness :
    truthy (JsId.num 7) = true
  ∧ handleMcpRequest true 3 [] ⟨JsId.num 7, Method.mToolsCall, "query_elements", 0⟩
      (FwdOutcome.peerResult 5) = [Frame.result (JsId.num 7) (Payload.peerValue 5)] :=
  ⟨by decide,
   (toolsCall_reply_uses_caller_id 3 [] (JsId.num 7) "query_elements" 0 5 (by decide)).1⟩

/-- Claim C9: a tools/call whose id is absent, null, or otherwise falsy
still gets the peer-derived reply, emitted under identifier 0 (the
expression message.id OR 0). -/
theorem toolsCall_falsy_id_zero (nid : Nat) (p : List Nat) (id : JsId)
    (nm : String) (args v : Nat) (h : truthy id = false) :
    handleMcpRequest true nid p ⟨id, Method.mToolsCall, nm, args⟩ (FwdOutcome.peerResult v)
      = [Frame.result (JsId.num 0) (Payload.peerValue v)] := by
  simp [handleMcpRequest, processRequest, jsOrZero, h]

/-- Witness for C9 with an absent id. -/
theorem toolsCall_falsy_id_zero_witness :
    truthy JsId.absent = false
  ∧ handleMcpRequest true 3 [] ⟨JsId.absent, Method.mToolsCall, "query_elements", 0⟩
      (FwdOutcome.peerResult 5) = [Frame.result (JsId.num 0) (Payload.peerValue 5)] :=
  ⟨by decide,
   toolsCall_falsy_id_zero 3 [] JsId.absent "query_elements" 0 5 (by decide)⟩

/-- Claim C6 counterexample: with the persisted hint port 27125 in use and
27126 free, the claimed algorithm binds 27126, but createServer's
address-in-use handler closes the server without settling the awaited
promise, so the loop never advances past 27125; and with a non-address-in-
use failure at 27125, the claimed algorithm attempts 27125 twice (the
2-second retry of the same candidate) while the code attempts it once and
moves on. -/
theorem port_scan_claim_counterexample :
    (createServer (fun p => if p = 27125 then BindResult.addrInUse
        else BindResult.listening) none).outcome = ScanOutcome.hungAt 27125
  ∧ (specAcquirePort (fun p => if p = 27125 then BindResult.addrInUse
        else BindResult.listening) none).outcome = ScanOutcome.bound 27126
  ∧ (createServer (fun p => if p = 27125 then BindResult.otherError
        else BindResult.listening) none).attempts = [27125, 27126]
  ∧ (specAcquirePort (fun p => if p = 27125 then BindResult.otherError
        else BindResult.listening) none).attempts = [27125, 27125, 27126]
  ∧ ScanOutcome.hungAt 27125 ≠ ScanOutcome.bound 27126 := by
  refine ⟨?_, ?_, ?_, ?_, ?_⟩ <;> decide

/-- Claim C6 (amended): the persisted hint is used as the scan start when
in range, else the lower bound; an address-in-use failure leaves the scan
stuck at that candidate (one attempt, nothing persisted, never advances);
the port file is written exactly on a successful bind; any other bind
failure incurs one 2-second backoff and then advances to the next
candidate without retrying the same one; and a range where every candidate
fails with a non-address-in-use error ends in the 5-second full-retry
outcome. -/
theorem port_scan_behavior :
    (∀ p : Nat, PORT_MIN ≤ p → p ≤ PORT_MAX → startPort (some p) = p)
  ∧ (∀ p : Nat, PORT_MAX < p → startPort (some p) = PORT_MIN)
  ∧ startPort none = PORT_MIN
  ∧ (∀ (bind : Nat → BindResult) (saved : Option Nat),
      bind (startPort saved) = BindResult.addrInUse →
      createServer bind saved = ⟨[startPort saved], 0, none,
        ScanOutcome.hungAt (startPort saved)⟩)
  ∧ (∀ (bind : Nat → BindResult) (fuel port q : Nat),
      ((scanFrom bind fuel port).persisted = some q ↔
        (scanFrom bind fuel port).outcome = ScanOutcome.bound q))
  ∧ (∀ (bind : Nat → BindResult) (fuel port : Nat),
      bind port = BindResult.otherError →
      scanFrom bind (fuel + 1) port =
        ⟨port :: (scanFrom bind fuel (port + 1)).attempts,
         (scanFrom bind fuel (port + 1)).backoff2sCount + 1,
         (scanFrom bind fuel (port + 1)).persisted,
         (scanFrom bind fuel (port + 1)).outcome⟩)
  ∧ (∀ bind : Nat → BindResult, (∀ p, bind p = BindResult.otherError) →
      (createServer bind none).outcome = ScanOutcome.exhaustedRetry5s) := by
  refine ⟨?_, ?_, ?_, ?_, ?_, ?_, ?_⟩
  · intro p h1 h2
    simp [startPort, h1, h2]
  · intro p h
    have : ¬(PORT_MIN ≤ p ∧ p ≤ PORT_MAX) := by
      intro hc; omega
    simp [startPort, this]
  · rfl
  · intro bind saved h
    have hle : startPort saved ≤ PORT_MAX := startPort_le_max saved
    have hfuel : PORT_MAX + 1 - startPort saved = (PORT_MAX - startPort saved) + 1 := by
      omega
    rw [createServer, hfuel]
    simp [scanFrom, h]
  · intro bind fuel port q
    exact scanFrom_persisted_iff bind fuel port q
  · intro bind fuel port h
    simp [scanFrom, h]
  · intro bind h
    exact scanFrom_all_otherError bind h _ _

/-- Witness for C6 (amended) at concrete inputs. -/
theorem port_scan_behavior_witness :
    startPort (some 27130) = 27130
  ∧ createServer (fun _ => BindResult.addrInUse) none
      = ⟨[27125], 0, none, ScanOutcome.hungAt 27125⟩
  ∧ (createServer (fun _ => BindResult.otherError) none).outcome
      = ScanOutcome.exhaustedRetry5s :=
  ⟨port_scan_behavior.1 27130 (by decide) (by decide),
   port_scan_behavior.2.2.2.1 (fun _ => BindResult.addrInUse) none rfl,
   port_scan_behavior.2.2.2.2.2.2 (fun _ => BindResult.otherError) (fun _ => rfl)⟩

/-- Claim C7 counterexample: in auto_port_bridge.js a second incoming
connection does not close the first — after two connection events both
sockets are still open, so the listener holds two simultaneous peer
connections. -/
theorem single_peer_counterexample :
    runAutoBridge [ConnEvent.connection 1, ConnEvent.connection 2]
      = ⟨[2, 1], some 2⟩
  ∧ 2 ≤ (runAutoBridge [ConnEvent.connection 1, ConnEvent.connection 2]).openSockets.length := by
  refine ⟨?_, ?_⟩ <;> decide

/-- Claim C7 (amended): in bridge.js a new incoming connection closes any
existing peer connection first, so that listener never holds two
simultaneous peer connections (at most one socket open after any event
sequence); in auto_port_bridge.js the handler only overwrites the peer
reference and leaves every previous socket open. -/
theorem bridge_single_peer_invariant :
    (∀ evs : List ConnEvent, (runBridge evs).openSockets.length ≤ 1)
  ∧ (∀ (s : ListenerState) (c o : Nat), s.peer = some o →
      stepBridge s (ConnEvent.connection c) = ⟨c :: s.openSockets.erase o, some c⟩)
  ∧ (∀ (s : ListenerState) (c : Nat),
      (stepAutoBridge s (ConnEvent.connection c)).openSockets = c :: s.openSockets) := by
  refine ⟨?_, ?_, ?_⟩
  · intro evs
    exact (listenerInv_run evs).1
  · intro s c o h
    obtain ⟨socks, peer⟩ := s
    cases peer with
    | none => simp at h
    | some o' =>
        have : o' = o := by simpa using h
        subst this
        rfl
  · intro s c
    rfl

/-- Witness for C7 (amended): a second connection supersedes the first in
bridge.js. -/
theorem bridge_single_peer_invariant_witness :
    (runBridge [ConnEvent.connection 1, ConnEvent.connection 2]).openSockets.length ≤ 1
  ∧ stepBridge ⟨[1], some 1⟩ (ConnEvent.connection 2) = ⟨[2], some 2⟩ :=
  ⟨bridge_single_peer_invariant.1 [ConnEvent.connection 1, ConnEvent.connection 2],
   bridge_single_peer_invariant.2.1 ⟨[1], some 1⟩ 2 1 rfl⟩

/-- Claim C8: once the restart counter has reached MAX_RESTARTS (5) and the
last restart lies inside the 60-second cooldown window, startBridge does
not spawn: it defers to the end of the cooldown, at which point the counter
is reset to zero and restarting resumes.  In the instant-crash-loop
simulation the first five spawns happen inside the window and the 6th only
at 70000 ms, after the cooldown. -/
theorem restart_throttle_holds (s : SupState) (now : Nat)
    (h1 : s.shutdownRequested = false) (h2 : MAX_RESTARTS ≤ s.restartCount)
    (h3 : now - s.lastRestartTime < RESTART_COOLDOWN) :
    startBridge s now
      = StartResult.deferredUntil (now + RESTART_COOLDOWN) { s with restartCount := 0 }
  ∧ crashLoopSpawns 7 0 ⟨0, 0, false⟩ = [0, 2000, 4000, 6000, 8000, 70000]
  ∧ ((crashLoopSpawns 7 0 ⟨0, 0, false⟩).filter
      (fun t => decide (t < RESTART_COOLDOWN))).length = 5 := by
  refine ⟨?_, by decide, by decide⟩
  simp [startBridge, h1, h2, h3]

/-- Witness for C8: the 6th startBridge attempt of a crash-looping child is
deferred with the counter reset. -/
theorem restart_throttle_holds_witness :
    startBridge ⟨5, 8000, false⟩ 10000
      = StartResult.deferredUntil 70000 ⟨0, 8000, false⟩ :=
  (restart_throttle_holds ⟨5, 8000, false⟩ 10000 rfl (by decide) (by decide)).1

/-- Claim C10 counterexample: get_console_logs with a supplied limit of 0
returns the whole buffer (slice(-0) is slice(0)), not at most 0 entries. -/
theorem console_logs_limit_counterexample :
    getConsoleLogs ["a", "b"] (some 0) = ["a", "b"]
  ∧ ¬((getConsoleLogs ["a", "b"] (some 0)).length ≤ 0) := by
  refine ⟨?_, ?_⟩ <;> decide

/-- Claim C10 (amended): the captured console buffer never exceeds 1000
entries and at capacity the oldest entry is discarded on capture;
get_console_logs with a positive limit returns at most limit entries taken
from the most recent end of the buffer, an omitted limit defaults to 100,
and a non-positive limit n instead drops the first (-n) entries (so limit
0 returns the entire buffer). -/
theorem console_capture_bounds (buf : List String) (m : String) (l : Int)
    (hb : buf.length ≤ 1000) (hl : 0 < l) :
    (captureConsoleMessage buf m).length ≤ 1000
  ∧ (buf.length = 1000 → captureConsoleMessage buf m = buf.tail ++ [m])
  ∧ (getConsoleLogs buf (some l)).length ≤ l.toNat
  ∧ getConsoleLogs buf (some l) = buf.drop (buf.length - l.toNat)
  ∧ (∀ b2 : List String, getConsoleLogs b2 none = getConsoleLogs b2 (some 100))
  ∧ (∀ (b2 : List String) (l2 : Int), l2 ≤ 0 →
      getConsoleLogs b2 (some l2) = b2.drop (-l2).toNat) := by
  refine ⟨?_, ?_, ?_, ?_, ?_, ?_⟩
  · simp only [captureConsoleMessage, CONSOLE_CAP]
    split
    · simp [List.length_tail, List.length_append]
      omega
    · simp [List.length_append] at *
      omega
  · intro hfull
    simp only [captureConsoleMessage, CONSOLE_CAP]
    rw [if_pos (by simp [List.length_append, hfull])]
    cases buf with
    | nil => simp at hfull
    | cons a t => rfl
  · simp only [getConsoleLogs, Option.getD, if_pos hl]
    simp only [List.length_drop]
    omega
  · simp only [getConsoleLogs, Option.getD, if_pos hl]
  · intro b2
    rfl
  · intro b2 l2 h2
    simp only [getConsoleLogs, Option.getD]
    rw [if_neg (by omega)]

/-- Witness for C10 (amended): capture keeps the bound and a positive limit
returns the most recent entries. -/
theorem console_capture_bounds_witness :
    (captureConsoleMessage ["a"] "b").length ≤ 1000
  ∧ getConsoleLogs ["a", "b", "c"] (some 2) = ["b", "c"] :=
  ⟨(console_capture_bounds ["a"] "b" 2 (by decide) (by decide)).1,
   (console_capture_bounds ["a", "b", "c"] "x" 2 (by decide) (by decide)).2.2.2.1⟩
